import Mathlib

/-!
Verification development for `logDirectoryFiles.py`, a batch tool that orders
version-named directories, diffs consecutive ones, and emits a CSV report.

The Python source is shallowly embedded: pure helpers become Lean functions,
the file system is an explicit `String → Option Nat` size map, the external
diff subprocess's stdout is an explicit `String` argument, and statements that
can raise uncaught Python exceptions (`IndexError`, `FileNotFoundError`,
`ZeroDivisionError`) return `Except Err _`.  Python `re` patterns are embedded
by small matchers that reproduce the leftmost/greedy backtracking semantics of
the two fixed patterns the script uses.
-/

namespace LogDir

/-- ASCII whitespace as accepted by Python's `str.strip` and regex `\s`
(the paths handled by the script are ASCII). -/
def isPySpace (c : Char) : Bool :=
  c = ' ' || c = '\t' || c = '\n' || c = '\r' || c = '\x0b' || c = '\x0c'

/-- Value of a run of decimal digits, as Python's `int()` computes it. -/
def digitsToNat (l : List Char) : Nat :=
  l.foldl (fun n c => 10 * n + (c.toNat - '0'.toNat)) 0

/-! ### The version-key regex of `sortDirectories`

`re.match(r'[^0-9]*([0-9]+)[^0-9]*([0-9]+)[^0-9]*([0-9]+)', directory)`:
anchored prefix match, each `[^0-9]*` is effectively the maximal nondigit run
before the next digit, and each capture group is resolved greedily with
backtracking (longest first).  `tryLens` performs that backtracking over the
possible lengths of one capture group inside the current maximal digit run. -/

/-- Try capture-group lengths `k, k-1, …, 1` of the digit `run` (greedy with
backtracking), feeding the remaining input to the continuation `next`. -/
def tryLens {α : Type} (next : List Char → Option α) :
    Nat → List Char → List Char → Option (Nat × α)
  | 0, _, _ => none
  | k + 1, run, rest =>
    match next (run.drop (k + 1) ++ rest) with
    | some a => some (digitsToNat (run.take (k + 1)), a)
    | none => tryLens next k run rest

/-- Skip the (possibly empty) maximal nondigit run: regex `[^0-9]*`. -/
def dropNondigits (s : List Char) : List Char :=
  s.dropWhile (fun c => !c.isDigit)

/-- Last capture group `([0-9]+)`: greedy, takes the whole digit run. -/
def tryG3 (s : List Char) : Option Nat :=
  let t := dropNondigits s
  let run := t.takeWhile Char.isDigit
  if run.isEmpty then none else some (digitsToNat run)

/-- Second and third capture groups. -/
def tryG23 (s : List Char) : Option (Nat × Nat) :=
  let t := dropNondigits s
  let run := t.takeWhile Char.isDigit
  tryLens tryG3 run.length run (t.drop run.length)

/-- The three capture groups of the version regex, with Python's
leftmost-greedy backtracking semantics. -/
def versionGroups (s : List Char) : Option (Nat × Nat × Nat) :=
  let t := dropNondigits s
  let run := t.takeWhile Char.isDigit
  tryLens tryG23 run.length run (t.drop run.length)

/-- Sort key computed by `sortDirectories` (lines 100–105): regex groups
combined as `1000*1000*g1 + 1000*g2 + g3`, and `0` when the regex fails. -/
def sortKey (name : String) : Nat :=
  match versionGroups name.toList with
  | some (a, b, c) => 1000 * 1000 * a + 1000 * b + c
  | none => 0

/-- Maximal digit runs of a string, in order (auxiliary, accumulator form). -/
def digitRunsAux : List Char → List Char → List (List Char)
  | [], cur => if cur.isEmpty then [] else [cur.reverse]
  | c :: cs, cur =>
    if c.isDigit then digitRunsAux cs (c :: cur)
    else if cur.isEmpty then digitRunsAux cs []
    else cur.reverse :: digitRunsAux cs []

/-- Maximal digit runs of a string, in order. -/
def digitRuns (s : List Char) : List (List Char) :=
  digitRunsAux s []

/-- The sort key as the claim words it: built from the *first three maximal
digit runs* of the name, `0` when fewer than three such runs exist.  This
definition follows the claim's words, for comparison with `sortKey`, which is
translated from the source regex. -/
def specSortKey (name : String) : Nat :=
  match digitRuns name.toList with
  | r1 :: r2 :: r3 :: _ =>
      1000 * 1000 * digitsToNat r1 + 1000 * digitsToNat r2 + digitsToNat r3
  | _ => 0

/-- First occurrences of a list, kept in encounter order — the key set of the
Python dict `temp` built by `sortDirectories` (duplicate names collapse onto
their first insertion; the overwritten value is identical because the key is
a function of the name). -/
def firstSeen {α : Type} [DecidableEq α] (l : List α) : List α :=
  l.foldl (fun acc x => if x ∈ acc then acc else acc ++ [x]) []

/-- Ordering on `(name, key)` pairs used to model Python's stable
`sorted(temp.items(), key=lambda item: item[1])`. -/
def keyLE (p q : String × Nat) : Prop := p.2 ≤ q.2

instance : DecidableRel keyLE := fun p q => inferInstanceAs (Decidable (p.2 ≤ q.2))

instance : IsTotal (String × Nat) keyLE := ⟨fun p q => Nat.le_total p.2 q.2⟩

instance : IsTrans (String × Nat) keyLE := ⟨fun _ _ _ h h' => Nat.le_trans h h'⟩

/-- `sortDirectories` (lines 98–112): build the name→key dict (first-seen key
order, deduplicated), stably sort its items ascending by value, and return the
keys.  Python's `sorted` is a stable sort, and a stable sort's output is
uniquely determined by the comparator, so stable insertion sort embeds it. -/
def sortDirectories (dirs : List String) : List String :=
  (List.insertionSort keyLE ((firstSeen dirs).map fun d => (d, sortKey d))).map Prod.fst

/-! ### String utilities mirroring the Python primitives -/

/-- Python `str.split(sep)` for a one-character separator (keeps empties). -/
def splitOnChar (sep : Char) : List Char → List (List Char)
  | [] => [[]]
  | c :: cs =>
    match splitOnChar sep cs with
    | [] => [[c]]
    | p :: ps => if c = sep then [] :: p :: ps else (c :: p) :: ps

/-- Python `str.split('=>')`: split on leftmost non-overlapping occurrences
of the two-character separator. -/
def splitOnArrow : List Char → List (List Char)
  | [] => [[]]
  | '=' :: '>' :: rest => [] :: splitOnArrow rest
  | c :: cs =>
    match splitOnArrow cs with
    | [] => [[c]]
    | p :: ps => (c :: p) :: ps

/-- Python `str.strip()`: drop ASCII whitespace from both ends. -/
def stripChars (l : List Char) : List Char :=
  ((l.dropWhile isPySpace).reverse.dropWhile isPySpace).reverse

/-- `os.path.splitext(p)[1]` (POSIX rules, as fits the `/`-separated paths in
play): the extension starts at the last dot of the last path component, unless
every character of that component before that dot is itself a dot. -/
def splitextExt (p : String) : String :=
  let base := (p.toList.reverse.takeWhile (fun c => c ≠ '/')).reverse
  let revBase := base.reverse
  let afterRev := revBase.takeWhile (fun c => c ≠ '.')
  if afterRev.length = revBase.length then ""
  else
    let pre := base.take (base.length - afterRev.length - 1)
    if pre.any (fun c => c ≠ '.') then String.mk ('.' :: afterRev.reverse) else ""

/-! ### The code-file classifier -/

/-- Prefix-matcher for one alternative `.*LIT` of the code-extension regex:
`re.match` succeeds iff the literal occurs after a (possibly empty) run of
non-newline characters; nothing anchors the end of the match. -/
def dotStarLit (lit : List Char) : List Char → Bool
  | [] => decide (lit = [])
  | c :: cs => lit.isPrefixOf (c :: cs) || (decide (c ≠ '\n') && dotStarLit lit cs)

/-- `re.match(isCodeFileRe, s)` with
`isCodeFileRe = r'(.*\.cpp|.*\.h|.*\.py|.*\.c|.*\.sh)'` (line 6): a prefix
match that is *not* anchored at the end of the string. -/
def isCodeMatch (s : String) : Bool :=
  dotStarLit ".cpp".toList s.toList || dotStarLit ".h".toList s.toList ||
    dotStarLit ".py".toList s.toList || dotStarLit ".c".toList s.toList ||
    dotStarLit ".sh".toList s.toList

/-- The fixed extension set the claim names (spec words, for comparison with
the source-derived `isCodeMatch`). -/
def specCodeExts : List String := [".cpp", ".h", ".py", ".c", ".sh"]

/-! ### File sizes and diff aggregation -/

/-- Uncaught Python exceptions the script can raise. -/
inductive Err : Type
  | indexError
  | fileNotFound
  | divByZero
deriving DecidableEq

instance {ε α : Type} [DecidableEq ε] [DecidableEq α] : DecidableEq (Except ε α) :=
  fun x y =>
    match x, y with
    | .ok a, .ok b =>
      if h : a = b then isTrue (by rw [h]) else isFalse (fun hc => h (Except.ok.inj hc))
    | .error e, .error f =>
      if h : e = f then isTrue (by rw [h]) else isFalse (fun hc => h (Except.error.inj hc))
    | .ok _, .error _ => isFalse Except.noConfusion
    | .error _, .ok _ => isFalse Except.noConfusion

/-- The on-disk state: the byte size of each existing file. -/
def FS : Type := String → Option Nat

/-- `getFileSize` (lines 116–118): `0` for the literal `/dev/null` path,
otherwise `os.path.getsize`, which raises on a missing path. -/
def getFileSize (fs : FS) (p : String) : Except Err Nat :=
  if p = "/dev/null" then .ok 0
  else
    match fs p with
    | some n => .ok n
    | none => .error .fileNotFound

/-- Bare `os.path.getsize` (as used at line 192): raises on a missing path. -/
def osGetsize (fs : FS) (p : String) : Except Err Nat :=
  match fs p with
  | some n => .ok n
  | none => .error .fileNotFound

/-- The eight counters accumulated by `compareDirectories`. -/
structure DiffStat : Type where
  additions : Int
  removals : Int
  filesChanged : Int
  filesChangedBytes : Int
  codeAdditions : Int
  codeRemovals : Int
  codeFilesChanged : Int
  codeFilesChangedBytes : Int
deriving DecidableEq

/-- The all-zero `DiffStat` that opens (and, for an empty predecessor, is
returned by) `compareDirectories`. -/
def zeroStat : DiffStat := ⟨0, 0, 0, 0, 0, 0, 0, 0⟩

/-- One alternation group `([0-9]+|-)` of the stat-line regex: a maximal digit
run, or a single dash. -/
def parseNumOrDash : List Char → Option (Option Nat × List Char)
  | [] => none
  | c :: cs =>
    if c.isDigit then
      let run := (c :: cs).takeWhile Char.isDigit
      some (some (digitsToNat run), (c :: cs).drop run.length)
    else if c = '-' then some (none, cs)
    else none

/-- A mid-pattern `\s+`: the maximal nonempty whitespace run (backtracking
never helps here, because the following group cannot start with whitespace). -/
def parseWsPlus (cs : List Char) : Option (List Char) :=
  let ws := cs.takeWhile isPySpace
  if ws.isEmpty then none else some (cs.drop ws.length)

/-- `re.match(r'^([0-9]+|-)\s+([0-9]+|-)\s+(.+)', line)` (line 146): groups 1
and 2 as parsed numbers (`none` for the binary-file dash), group 3 as the raw
path text.  In the trailing `\s+(.+)` the greedy `\s+` backtracks by one
character when the line would otherwise end, leaving `(.+)` one character. -/
def parseStatLine (line : String) : Option (Option Nat × Option Nat × List Char) := do
  let (g1, r1) ← parseNumOrDash line.toList
  let r2 ← parseWsPlus r1
  let (g2, r3) ← parseNumOrDash r2
  let ws := r3.takeWhile isPySpace
  if ws.isEmpty then none
  else
    let rest := r3.drop ws.length
    if rest.isEmpty then
      if 2 ≤ ws.length then some (g1, g2, ws.drop (ws.length - 1)) else none
    else some (g1, g2, rest)

/-- Path normalization of line 164: the piece after the first `=>`, with
every closing brace removed and surrounding whitespace stripped. -/
def normalizePath (piece : List Char) : String :=
  String.mk (stripChars (piece.filter (fun c => c ≠ '\x7d')))

/-- Body of the `for line in lines` loop of `compareDirectories`
(lines 145–174).  A non-matching line is skipped; a matching line updates the
eight counters, raising `IndexError` when the path contains no `=>` and
`FileNotFoundError` when the normalized path is absent (and not `/dev/null`). -/
def processLine (fs : FS) (st : DiffStat) (line : String) : Except Err DiffStat :=
  match parseStatLine line with
  | none => .ok st
  | some (g1, g2, g3) =>
    let additions : Int := (g1.getD 0 : Nat)
    let removals : Int := (g2.getD 0 : Nat)
    match (splitOnArrow g3)[1]? with
    | none => .error .indexError
    | some piece => do
      let fileSize ← getFileSize fs (normalizePath piece)
      let isCode := isCodeMatch (splitextExt (String.mk g3))
      .ok
        { additions := st.additions + additions
          removals := st.removals + removals
          filesChanged := st.filesChanged + 1
          filesChangedBytes := st.filesChangedBytes + (fileSize : Int)
          codeAdditions := if isCode then st.codeAdditions + additions else st.codeAdditions
          codeRemovals := if isCode then st.codeRemovals + removals else st.codeRemovals
          codeFilesChanged := if isCode then st.codeFilesChanged + 1 else st.codeFilesChanged
          codeFilesChangedBytes :=
            if isCode then st.codeFilesChangedBytes + (fileSize : Int)
            else st.codeFilesChangedBytes }

/-- `compareDirectories` (lines 120–185).  The stdout of the external
`git diff` subprocess is the explicit `output` argument; an empty `prevDir`
short-circuits to the all-zero result without consulting it. -/
def compareDirectories (prevDir curDir : String) (output : String) (fs : FS) :
    Except Err DiffStat :=
  if prevDir = "" then .ok zeroStat
  else
    (splitOnChar '\n' output.toList).foldlM
      (fun st lineCs => processLine fs st (String.mk lineCs)) zeroStat

/-! ### Extension histogram and the report row -/

/-- One step of the histogram dict build (lines 199–205): bump the entry for
extension `e`, appending `(e, 1)` on first encounter. -/
def bump : List (String × Nat) → String → List (String × Nat)
  | [], e => [(e, 1)]
  | (k, v) :: rest, e =>
    if k = e then (k, v + 1) :: rest else (k, v) :: bump rest e

/-- The `extension → count` dict over the enumerated files, keys in
first-encounter order. -/
def histo (files : List String) : List (String × Nat) :=
  files.foldl (fun acc f => bump acc (splitextExt f)) []

/-- Comparison for `sorted(extensionsDict.items(), key=…, reverse=True)`
(line 206): Python's sort is stable also in reverse mode, so equal-count
entries keep dict (first-encounter) order. -/
def keyGE (p q : String × Nat) : Prop := q.2 ≤ p.2

instance : DecidableRel keyGE := fun p q => inferInstanceAs (Decidable (q.2 ≤ p.2))

instance : IsTotal (String × Nat) keyGE := ⟨fun p q => Nat.le_total q.2 p.2⟩

instance : IsTrans (String × Nat) keyGE := ⟨fun _ _ _ h h' => Nat.le_trans h' h⟩

/-- The histogram entries after line 206's stable descending sort. -/
def sortedHisto (files : List String) : List (String × Nat) :=
  List.insertionSort keyGE (histo files)

/-- The string accumulation of lines 208–212: append `", "` only when the
accumulator is already nonempty, then `key (count)`. -/
def renderHisto (l : List (String × Nat)) : String :=
  l.foldl
    (fun s kv =>
      (if s.length = 0 then s else s ++ ", ") ++ kv.1 ++ " (" ++ toString kv.2 ++ ")") ""

/-- The rendered histogram string (lines 199–212). -/
def extensionHistogramString (files : List String) : String :=
  renderHisto (sortedHisto files)

/-- A CSV cell.  Python's `str()` rendering of numbers is abstracted: integer
cells keep their integer value, and the true-division results are kept as
exact rationals in place of Python floats (no verified claim depends on the
decimal rendering, only on which value is computed and whether it faults). -/
inductive Cell : Type
  | s (v : String)
  | n (v : Int)
  | q (v : ℚ)
deriving DecidableEq

/-- A report row: the dict built at lines 217–239, as an ordered key–cell
list (Python dicts preserve insertion order). -/
abbrev Row : Type := List (String × Cell)

/-- Python's true division `a / b`, raising `ZeroDivisionError` on `b = 0`. -/
def divRat (a b : Int) : Except Err ℚ :=
  if b = 0 then .error .divByZero else .ok ((a : ℚ) / (b : ℚ))

/-- The loop of lines 190–192: sum of `os.path.getsize(file)` over all
enumerated files. -/
def allFilesSize (fs : FS) (files : List String) : Except Err Nat :=
  files.foldlM (fun acc f => do pure (acc + (← osGetsize fs f))) 0

/-- The loop of lines 195–197: sum of `getFileSize(file)` over code files. -/
def codeFilesSizeSum (fs : FS) (files : List String) : Except Err Nat :=
  files.foldlM (fun acc f => do pure (acc + (← getFileSize fs f))) 0

/-- The dict literal of lines 217–239, with the already-computed values
substituted in: the exact keys in insertion order, including the three
separator entries keyed `"*"`, `"* "` and `"*  "` (distinct keys thanks to
trailing spaces) whose value is `"*"`, and the `'File extenension histogram'`
key with the source's spelling. -/
def rowOf (directory : String) (numFiles : Nat) (filesSize : Nat) (numCodeFiles : Nat)
    (codefilesSize : Nat) (extensions : String) (comparison : DiffStat)
    (r1 r2 r3 r4 : ℚ) : Row :=
  [("Ethereum Version", .s directory),
   ("Num all files", .n numFiles),
   ("Size all files (B)", .n filesSize),
   ("Num code files (sol, go, c, js, java, h, cpp, sh, s, py)", .n numCodeFiles),
   ("Size code files (B)", .n codefilesSize),
   ("*", .s "*"),
   ("All line additions", .n comparison.additions),
   ("All line removals", .n comparison.removals),
   ("All files changed", .n comparison.filesChanged),
   ("Ratio all files changed", .q r1),
   ("All changed bytes", .n comparison.filesChangedBytes),
   ("Ratio all bytes changed", .q r2),
   ("* ", .s "*"),
   ("Code line additions", .n comparison.codeAdditions),
   ("Code line removals", .n comparison.codeRemovals),
   ("Code files changed", .n comparison.codeFilesChanged),
   ("Ratio code files changed", .q r3),
   ("Code changed bytes", .n comparison.codeFilesChangedBytes),
   ("Ratio code bytes changed", .q r4),
   ("*  ", .s "*"),
   ("File extenension histogram", .s extensions)]

/-- `getDirectoryStats` (lines 188–239).  The recursive file enumeration of
`directory` is the explicit `files` argument (paths in walk order); sizes come
from the explicit file system `fs`; the diff subprocess stdout is
`diffOutput`.  All-file sizes are summed with bare `os.path.getsize`
(line 192), code-file sizes with `getFileSize` (line 197); the code files are
the enumerated paths matching `isCodeFileRe` (line 194, a full-path match).
The four divisions are evaluated in their dict order; hoisting them before the
(otherwise fault-free) dict assembly preserves behavior. -/
def getDirectoryStats (directory prevVersionDirectory : String) (files : List String)
    (fs : FS) (diffOutput : String) : Except Err Row := do
  let filesSize ← allFilesSize fs files
  let codeFiles := files.filter (fun f => isCodeMatch f)
  let codefilesSize ← codeFilesSizeSum fs codeFiles
  let extensions := extensionHistogramString files
  let comparison ← compareDirectories prevVersionDirectory directory diffOutput fs
  let r1 ← divRat comparison.filesChanged (files.length : Int)
  let r2 ← divRat comparison.filesChangedBytes (filesSize : Int)
  let r3 ← divRat comparison.codeFilesChanged (codeFiles.length : Int)
  let r4 ← divRat comparison.codeFilesChangedBytes (codefilesSize : Int)
  .ok (rowOf directory files.length filesSize codeFiles.length codefilesSize
    extensions comparison r1 r2 r3 r4)

/-- The claimed invariant of C9: all eight counters non-negative and each
code-restricted counter bounded by its all-files counterpart. -/
def StatInv (st : DiffStat) : Prop :=
  0 ≤ st.additions ∧ 0 ≤ st.removals ∧ 0 ≤ st.filesChanged ∧ 0 ≤ st.filesChangedBytes ∧
    0 ≤ st.codeAdditions ∧ 0 ≤ st.codeRemovals ∧ 0 ≤ st.codeFilesChanged ∧
    0 ≤ st.codeFilesChangedBytes ∧
    st.codeAdditions ≤ st.additions ∧ st.codeRemovals ≤ st.removals ∧
    st.codeFilesChanged ≤ st.filesChanged ∧ st.codeFilesChangedBytes ≤ st.filesChangedBytes

/-- Total value stored under a key in an association list (`0` when absent);
with nodup keys this is the unique stored value.  Specification device for
reasoning about the histogram dict. -/
def valueOf : List (String × Nat) → String → Nat
  | [], _ => 0
  | (k, v) :: rest, x => (if k = x then v else 0) + valueOf rest x

/-- The header cells as the writer loop renders them (lines 252–257): one
`key.strip()` per row entry, in row order. -/
def headerColumns (row : Row) : List String :=
  row.map (fun kv => String.mk (stripChars kv.1.toList))

/-- The CSV header line accumulated by the writer loop:
`'"' + key.strip() + '",'` per column. -/
def csvHeader (row : Row) : String :=
  row.foldl (fun h kv => h ++ "\"" ++ String.mk (stripChars kv.1.toList) ++ "\",") ""

/-- The main loop body (lines 248–264), threading `prevVersionDirectory`
through the sorted directory list. -/
def processAllAux (filesOf : String → List String) (fs : FS)
    (diffOut : String → String → String) :
    String → List String → Except Err (List Row)
  | _, [] => .ok []
  | prev, d :: rest => do
    let row ← getDirectoryStats d prev (filesOf d) fs (diffOut prev d)
    let rows ← processAllAux filesOf fs diffOut d rest
    .ok (row :: rows)

/-- The batch run (lines 242–264): sort the discovered directories
(`reverse` is passed as `False`, so no reversal happens), then emit one report
row per directory, the first one paired with the empty previous directory.
`filesOf` models the per-directory enumeration and `diffOut` the external
diff stdout for a pair of directories. -/
def processAll (dirs : List String) (filesOf : String → List String) (fs : FS)
    (diffOut : String → String → String) : Except Err (List Row) :=
  processAllAux filesOf fs diffOut "" (sortDirectories dirs)

/-! ## Helper lemmas -/

/-- An `Except` value equal to an error is not any success. -/
theorem error_ne_ok {ε α : Type} {x : Except ε α} {e : ε} (h : x = .error e) (a : α) :
    x ≠ .ok a := by
  intro hc
  rw [h] at hc
  exact Except.noConfusion hc

/-- On newline-free input, the `.*LIT` prefix matcher is exactly substring
containment of the literal. -/
theorem dotStarLit_iff_infix (lit : List Char) :
    ∀ l : List Char, (∀ c ∈ l, c ≠ '\n') → (dotStarLit lit l = true ↔ lit <:+: l)
  | [], _ => by simp [dotStarLit]
  | c :: cs, h => by
    have hc : c ≠ '\n' := h c (by simp)
    have ih := dotStarLit_iff_infix lit cs (fun x hx => h x (by simp [hx]))
    simp [dotStarLit, hc, List.infix_cons_iff, ih, List.isPrefixOf_iff_prefix]

/-- Splitting a list that does not contain the separator returns it whole. -/
theorem splitOnChar_eq_singleton {sep : Char} :
    ∀ {l : List Char}, sep ∉ l → splitOnChar sep l = [l]
  | [], _ => rfl
  | c :: cs, h => by
    have hc : ¬ c = sep := fun e => h (e ▸ List.mem_cons_self c cs)
    have ih := splitOnChar_eq_singleton (l := cs) (fun m => h (List.mem_cons_of_mem c m))
    simp [splitOnChar, ih, hc]

/-! ## Claim C5: the code-file classifier -/

/-- **C5 counterexample.**  The claim says any extension outside
`{.cpp, .h, .py, .c, .sh}` — naming `.html` explicitly — is classified as
non-code; but `re.match` only anchors the start of the pattern, so the
alternative `.*\.h` matches the prefix `.h` of `.html` and the extension is
classified as code. -/
theorem C5_counterexample :
    isCodeMatch ".html" = true ∧ ".html" ∉ specCodeExts := by decide

/-- **C5 (amended).**  A string (in particular an extension) is classified as
code iff it *contains* one of `.cpp`, `.h`, `.py`, `.c`, `.sh` as a substring
(stated for newline-free strings, the only ones reachable here): `re.match`
anchors only the start, so each alternative `.*LIT` asks for the literal
anywhere, not for the whole extension to equal it. -/
theorem C5_code_classifier (s : String) (h : ∀ c ∈ s.toList, c ≠ '\n') :
    isCodeMatch s = true ↔
      (".cpp".toList <:+: s.toList ∨ ".h".toList <:+: s.toList ∨
        ".py".toList <:+: s.toList ∨ ".c".toList <:+: s.toList ∨
        ".sh".toList <:+: s.toList) := by
  have key : ∀ lit, dotStarLit lit s.toList = true ↔ lit <:+: s.toList :=
    fun lit => dotStarLit_iff_infix lit s.toList h
  simp only [isCodeMatch, Bool.or_eq_true, key, or_assoc]

/-- Witness for C5: instantiated at the extension `.hpp`. -/
theorem C5_code_classifier_witness :
    (∀ c ∈ ".hpp".toList, c ≠ '\n') ∧
      (isCodeMatch ".hpp" = true ↔
        (".cpp".toList <:+: ".hpp".toList ∨ ".h".toList <:+: ".hpp".toList ∨
          ".py".toList <:+: ".hpp".toList ∨ ".c".toList <:+: ".hpp".toList ∨
          ".sh".toList <:+: ".hpp".toList)) :=
  ⟨by decide, C5_code_classifier ".hpp" (by decide)⟩

/-! ## Claim C8: the size lookup -/

/-- **C8 counterexample.**  The claim says a missing file is not an error and
the lookup returns `0`; but `getFileSize` special-cases only the literal
`/dev/null` path and otherwise calls `os.path.getsize`, which raises on a
missing path. -/
theorem C8_counterexample :
    getFileSize (fun _ => none) "missing.txt" = .error .fileNotFound ∧
      getFileSize (fun _ => none) "missing.txt" ≠ .ok 0 :=
  ⟨rfl, error_ne_ok rfl 0⟩

/-- **C8 (amended).**  The size lookup returns `0` only for the literal
`/dev/null` path; for any other path it returns the on-disk size when the
file exists and raises (an unhandled `FileNotFoundError`) when it does not. -/
theorem C8_getFileSize (fs : FS) (p : String) :
    (p = "/dev/null" → getFileSize fs p = .ok 0) ∧
    (p ≠ "/dev/null" → ∀ n, fs p = some n → getFileSize fs p = .ok n) ∧
    (p ≠ "/dev/null" → fs p = none → getFileSize fs p = .error .fileNotFound) := by
  refine ⟨fun h => ?_, fun h n hn => ?_, fun h hn => ?_⟩
  · simp [getFileSize, h]
  · simp [getFileSize, h, hn]
  · simp [getFileSize, h, hn]

/-- Witness for C8: a present file of size 9 and the `/dev/null` case. -/
theorem C8_getFileSize_witness :
    getFileSize (fun q => if q = "a.txt" then some 9 else none) "a.txt" = .ok 9 ∧
      getFileSize (fun q => if q = "a.txt" then some 9 else none) "/dev/null" = .ok 0 :=
  ⟨(C8_getFileSize _ "a.txt").2.1 (by decide) 9 (by decide),
    (C8_getFileSize (fun q => if q = "a.txt" then some 9 else none) "/dev/null").1 rfl⟩

/-- Structure eta: rebuilding a string from its characters is the identity. -/
theorem String.mk_toList (s : String) : String.mk s.toList = s := rfl

/-- Characterization of the loop body on a line that matches the stat
pattern, has an `=>` in its path, and whose normalized path has a size. -/
theorem processLine_parsed (fs : FS) (st : DiffStat) (line : String)
    (g1 g2 : Option Nat) (g3 piece : List Char) (size : Nat)
    (hparse : parseStatLine line = some (g1, g2, g3))
    (hpiece : (splitOnArrow g3)[1]? = some piece)
    (hsize : getFileSize fs (normalizePath piece) = .ok size) :
    processLine fs st line =
      .ok { additions := st.additions + (g1.getD 0 : Nat),
            removals := st.removals + (g2.getD 0 : Nat),
            filesChanged := st.filesChanged + 1,
            filesChangedBytes := st.filesChangedBytes + (size : Int),
            codeAdditions :=
              if isCodeMatch (splitextExt (String.mk g3)) then st.codeAdditions + (g1.getD 0 : Nat)
              else st.codeAdditions,
            codeRemovals :=
              if isCodeMatch (splitextExt (String.mk g3)) then st.codeRemovals + (g2.getD 0 : Nat)
              else st.codeRemovals,
            codeFilesChanged :=
              if isCodeMatch (splitextExt (String.mk g3)) then st.codeFilesChanged + 1
              else st.codeFilesChanged,
            codeFilesChangedBytes :=
              if isCodeMatch (splitextExt (String.mk g3)) then st.codeFilesChangedBytes + (size : Int)
              else st.codeFilesChangedBytes } := by
  simp only [processLine, hparse, hpiece, bind, Except.bind, hsize]

/-- The comparison of a single matched stat line, from the zero state. -/
theorem compareDirectories_single_line (prev cur : String) (fs : FS) (line : String)
    (g1 g2 : Option Nat) (g3 piece : List Char) (size : Nat)
    (hprev : prev ≠ "")
    (hnl : '\n' ∉ line.toList)
    (hparse : parseStatLine line = some (g1, g2, g3))
    (hpiece : (splitOnArrow g3)[1]? = some piece)
    (hsize : getFileSize fs (normalizePath piece) = .ok size) :
    compareDirectories prev cur line fs =
      .ok { additions := (g1.getD 0 : Nat), removals := (g2.getD 0 : Nat),
            filesChanged := 1, filesChangedBytes := (size : Int),
            codeAdditions :=
              if isCodeMatch (splitextExt (String.mk g3)) then (g1.getD 0 : Nat) else 0,
            codeRemovals :=
              if isCodeMatch (splitextExt (String.mk g3)) then (g2.getD 0 : Nat) else 0,
            codeFilesChanged := if isCodeMatch (splitextExt (String.mk g3)) then 1 else 0,
            codeFilesChangedBytes :=
              if isCodeMatch (splitextExt (String.mk g3)) then (size : Int) else 0 } := by
  have hstep := processLine_parsed fs zeroStat line g1 g2 g3 piece size hparse hpiece hsize
  unfold compareDirectories
  rw [if_neg hprev, splitOnChar_eq_singleton hnl]
  simp only [List.foldlM_cons, List.foldlM_nil, String.mk_toList]
  rw [hstep]
  simp [zeroStat]

/-! ## Claim C2: numeric stat lines -/

/-- **C2 counterexample.**  The claim says a stat line with a *plain*
(non-brace-expanded) path, e.g. `"10\t3\tsrc/main.py"`, is counted; but the
code unconditionally takes `match.group(3).split('=>')[1]`, which raises an
uncaught `IndexError` when the path contains no `=>` — the comparison aborts
and nothing is counted. -/
theorem C2_counterexample :
    compareDirectories "v1" "v2" "10\t3\tsrc/main.py" (fun _ => some 5) =
        .error .indexError ∧
      ∀ st, compareDirectories "v1" "v2" "10\t3\tsrc/main.py" (fun _ => some 5) ≠ .ok st :=
  ⟨rfl, fun st => error_ne_ok rfl st⟩

/-- **C2 (amended).**  For a diff-output line matching
`<additions><TAB><removals><TAB><path>` whose path contains `=>` (the
brace-expanded form git emits for directory-vs-directory diffs) and whose
normalized current-side path resolves to `size` bytes, `compareDirectories`
adds the additions and removals to the all-file counters, increments all-file
files-changed by 1, adds `size` to files-changed-bytes, and applies the same
deltas to the code-file counters exactly when the raw path's extension
matches the code pattern (e.g. `.py`).  A plain path instead raises an
unhandled `IndexError`. -/
theorem C2_stat_line (prev cur : String) (fs : FS) (line : String) (a r : Nat)
    (g3 piece : List Char) (size : Nat)
    (hprev : prev ≠ "")
    (hnl : '\n' ∉ line.toList)
    (hparse : parseStatLine line = some (some a, some r, g3))
    (hpiece : (splitOnArrow g3)[1]? = some piece)
    (hsize : getFileSize fs (normalizePath piece) = .ok size) :
    compareDirectories prev cur line fs =
      .ok { additions := (a : Int), removals := (r : Int), filesChanged := 1,
            filesChangedBytes := (size : Int),
            codeAdditions := if isCodeMatch (splitextExt (String.mk g3)) then (a : Int) else 0,
            codeRemovals := if isCodeMatch (splitextExt (String.mk g3)) then (r : Int) else 0,
            codeFilesChanged := if isCodeMatch (splitextExt (String.mk g3)) then 1 else 0,
            codeFilesChangedBytes :=
              if isCodeMatch (splitextExt (String.mk g3)) then (size : Int) else 0 } := by
  have h := compareDirectories_single_line prev cur fs line (some a) (some r) g3 piece size
    hprev hnl hparse hpiece hsize
  simpa using h

/-- Witness for C2: the line `10<TAB>3<TAB>{v1 => v2}/src/main.py` against a
file system where `v2/src/main.py` has 5 bytes; `.py` is a code extension, so
both counter families receive the deltas. -/
theorem C2_stat_line_witness :
    compareDirectories "v1" "v2" "10\t3\t\x7bv1 => v2\x7d/src/main.py"
        (fun p => if p = "v2/src/main.py" then some 5 else none) =
      .ok ⟨10, 3, 1, 5, 10, 3, 1, 5⟩ :=
  (C2_stat_line "v1" "v2" (fun p => if p = "v2/src/main.py" then some 5 else none)
    "10\t3\t\x7bv1 => v2\x7d/src/main.py" 10 3
    "\x7bv1 => v2\x7d/src/main.py".toList " v2\x7d/src/main.py".toList 5
    (by decide) (by decide) (by decide) rfl rfl).trans
      (congrArg Except.ok (by decide))

/-! ## Claim C3: binary-file stat lines -/

/-- **C3 counterexample.**  The claim says the size lookup yields 0 for a
null/absent file; but on a file system where the normalized path
`v2/a/b.bin` is absent, the binary-file line raises an uncaught
`FileNotFoundError` (only the literal `/dev/null` is special-cased), so the
line is not counted at all. -/
theorem C3_counterexample :
    compareDirectories "v1" "v2" "-\t-\t\x7bv1 => v2\x7d/a/b.bin" (fun _ => none) =
        .error .fileNotFound ∧
      ∀ st, compareDirectories "v1" "v2" "-\t-\t\x7bv1 => v2\x7d/a/b.bin" (fun _ => none) ≠
        .ok st :=
  ⟨rfl, fun st => error_ne_ok rfl st⟩

/-- **C3 (amended).**  For a diff-output line whose additions and removals
fields are the `-` sentinel (binary file), `compareDirectories` adds 0 to
additions and removals, increments files-changed by 1, and adds the current
on-disk byte size of the normalized path to files-changed-bytes — where the
size lookup yields 0 for the literal `/dev/null` path and raises an unhandled
error for any other absent path. -/
theorem C3_binary_line (prev cur : String) (fs : FS) (line : String)
    (g3 piece : List Char) (size : Nat)
    (hprev : prev ≠ "")
    (hnl : '\n' ∉ line.toList)
    (hparse : parseStatLine line = some (none, none, g3))
    (hpiece : (splitOnArrow g3)[1]? = some piece)
    (hsize : getFileSize fs (normalizePath piece) = .ok size) :
    compareDirectories prev cur line fs =
      .ok { additions := 0, removals := 0, filesChanged := 1,
            filesChangedBytes := (size : Int),
            codeAdditions := 0, codeRemovals := 0,
            codeFilesChanged := if isCodeMatch (splitextExt (String.mk g3)) then 1 else 0,
            codeFilesChangedBytes :=
              if isCodeMatch (splitextExt (String.mk g3)) then (size : Int) else 0 } := by
  have h := compareDirectories_single_line prev cur fs line none none g3 piece size
    hprev hnl hparse hpiece hsize
  simpa using h

/-- Witness for C3: the spec's own example line
`-<TAB>-<TAB>{v1 => v2}/a/b.bin` against a file system where `v2/a/b.bin` has
7 bytes: 0 additions, 0 removals, files-changed 1, bytes 7, and no code-file
deltas (`.bin` is not a code extension). -/
theorem C3_binary_line_witness :
    compareDirectories "v1" "v2" "-\t-\t\x7bv1 => v2\x7d/a/b.bin"
        (fun p => if p = "v2/a/b.bin" then some 7 else none) =
      .ok ⟨0, 0, 1, 7, 0, 0, 0, 0⟩ :=
  (C3_binary_line "v1" "v2" (fun p => if p = "v2/a/b.bin" then some 7 else none)
    "-\t-\t\x7bv1 => v2\x7d/a/b.bin"
    "\x7bv1 => v2\x7d/a/b.bin".toList " v2\x7d/a/b.bin".toList 7
    (by decide) (by decide) (by decide) rfl rfl).trans
      (congrArg Except.ok (by decide))

/-! ## Claim C9: DiffStat invariants -/

/-- Each loop iteration preserves the invariant. -/
theorem processLine_inv (fs : FS) (st st' : DiffStat) (line : String)
    (h : processLine fs st line = .ok st') (hst : StatInv st) : StatInv st' := by
  unfold processLine at h
  cases hp : parseStatLine line with
  | none =>
    rw [hp] at h
    simp only [Except.ok.injEq] at h
    rwa [← h]
  | some g =>
    obtain ⟨g1, g2, g3⟩ := g
    simp only [hp] at h
    cases hq : (splitOnArrow g3)[1]? with
    | none =>
      simp only [hq] at h
      exact Except.noConfusion h
    | some piece =>
      simp only [hq] at h
      cases hs : getFileSize fs (normalizePath piece) with
      | error e =>
        simp only [hs, bind, Except.bind] at h
        exact Except.noConfusion h
      | ok size =>
        simp only [hs, bind, Except.bind, Except.ok.injEq] at h
        rw [← h]
        simp only [StatInv] at hst ⊢
        split_ifs <;> omega

/-- The fold over all diff-output lines preserves the invariant. -/
theorem foldlM_inv (fs : FS) : ∀ (lines : List (List Char)) (st st' : DiffStat),
    StatInv st →
    lines.foldlM (fun s l => processLine fs s (String.mk l)) st = .ok st' → StatInv st'
  | [], st, st', hst, h => by
    simp only [List.foldlM_nil, pure, Except.pure, Except.ok.injEq] at h
    rwa [← h]
  | l :: ls, st, st', hst, h => by
    rw [List.foldlM_cons] at h
    cases hs : processLine fs st (String.mk l) with
    | error e =>
      rw [hs] at h
      simp only [bind, Except.bind] at h
      exact Except.noConfusion h
    | ok st1 =>
      rw [hs] at h
      simp only [bind, Except.bind] at h
      exact foldlM_inv fs ls st1 st' (processLine_inv fs st st1 _ hs hst) h

/-- **C9 (confirmed).**  Every counter of a successfully computed `DiffStat`
is non-negative, and each code-restricted counter is at most its all-files
counterpart (each line adds the same non-negative deltas to the code counters
as to the all-file ones, or nothing). -/
theorem C9_diffstat_invariants (prev cur output : String) (fs : FS) (st : DiffStat)
    (h : compareDirectories prev cur output fs = .ok st) :
    0 ≤ st.additions ∧ 0 ≤ st.removals ∧ 0 ≤ st.filesChanged ∧ 0 ≤ st.filesChangedBytes ∧
      0 ≤ st.codeAdditions ∧ 0 ≤ st.codeRemovals ∧ 0 ≤ st.codeFilesChanged ∧
      0 ≤ st.codeFilesChangedBytes ∧
      st.codeAdditions ≤ st.additions ∧ st.codeRemovals ≤ st.removals ∧
      st.codeFilesChanged ≤ st.filesChanged ∧
      st.codeFilesChangedBytes ≤ st.filesChangedBytes := by
  unfold compareDirectories at h
  by_cases hp : prev = ""
  · rw [if_pos hp] at h
    simp only [Except.ok.injEq] at h
    rw [← h]
    exact ⟨le_refl 0, le_refl 0, le_refl 0, le_refl 0, le_refl 0, le_refl 0, le_refl 0,
      le_refl 0, le_refl 0, le_refl 0, le_refl 0, le_refl 0⟩
  · rw [if_neg hp] at h
    exact foldlM_inv fs _ zeroStat st
      ⟨le_refl 0, le_refl 0, le_refl 0, le_refl 0, le_refl 0, le_refl 0, le_refl 0,
        le_refl 0, le_refl 0, le_refl 0, le_refl 0, le_refl 0⟩ h

/-- Witness for C9: the concrete comparison of the C2 witness. -/
theorem C9_diffstat_invariants_witness :
    (0 : Int) ≤ 10 ∧ (0 : Int) ≤ 3 ∧ (0 : Int) ≤ 1 ∧ (0 : Int) ≤ 5 ∧ (0 : Int) ≤ 10 ∧
      (0 : Int) ≤ 3 ∧ (0 : Int) ≤ 1 ∧ (0 : Int) ≤ 5 ∧ (10 : Int) ≤ 10 ∧ (3 : Int) ≤ 3 ∧
      (1 : Int) ≤ 1 ∧ (5 : Int) ≤ 5 :=
  C9_diffstat_invariants "v1" "v2" "10\t3\t\x7bv1 => v2\x7d/src/main.py"
    (fun p => if p = "v2/src/main.py" then some 5 else none) ⟨10, 3, 1, 5, 10, 3, 1, 5⟩ rfl

/-! ## Anatomy of a successful report row -/

/-- A successful `getDirectoryStats` call decomposes into successful
sub-computations, and its row is the dict literal over their results. -/
theorem getDirectoryStats_ok_elim {d p : String} {files : List String} {fs : FS}
    {out : String} {row : Row}
    (h : getDirectoryStats d p files fs out = .ok row) :
    ∃ A B cmp q1 q2 q3 q4,
      allFilesSize fs files = .ok A ∧
      codeFilesSizeSum fs (files.filter (fun f => isCodeMatch f)) = .ok B ∧
      compareDirectories p d out fs = .ok cmp ∧
      divRat cmp.filesChanged (files.length : Int) = .ok q1 ∧
      divRat cmp.filesChangedBytes (A : Int) = .ok q2 ∧
      divRat cmp.codeFilesChanged ((files.filter (fun f => isCodeMatch f)).length : Int) = .ok q3 ∧
      divRat cmp.codeFilesChangedBytes (B : Int) = .ok q4 ∧
      row = rowOf d files.length A (files.filter (fun f => isCodeMatch f)).length B
        (extensionHistogramString files) cmp q1 q2 q3 q4 := by
  unfold getDirectoryStats at h
  cases hA : allFilesSize fs files with
  | error e =>
    simp only [hA, bind, Except.bind] at h
    exact Except.noConfusion h
  | ok A =>
    simp only [hA, bind, Except.bind] at h
    cases hB : codeFilesSizeSum fs (files.filter (fun f => isCodeMatch f)) with
    | error e =>
      simp only [hB, bind, Except.bind] at h
      exact Except.noConfusion h
    | ok B =>
      simp only [hB, bind, Except.bind] at h
      cases hc : compareDirectories p d out fs with
      | error e =>
        simp only [hc, bind, Except.bind] at h
        exact Except.noConfusion h
      | ok cmp =>
        simp only [hc, bind, Except.bind] at h
        cases h1 : divRat cmp.filesChanged (files.length : Int) with
        | error e =>
          simp only [h1, bind, Except.bind] at h
          exact Except.noConfusion h
        | ok q1 =>
          simp only [h1, bind, Except.bind] at h
          cases h2 : divRat cmp.filesChangedBytes (A : Int) with
          | error e =>
            simp only [h2, bind, Except.bind] at h
            exact Except.noConfusion h
          | ok q2 =>
            simp only [h2, bind, Except.bind] at h
            cases h3 : divRat cmp.codeFilesChanged
                ((files.filter (fun f => isCodeMatch f)).length : Int) with
            | error e =>
              simp only [h3, bind, Except.bind] at h
              exact Except.noConfusion h
            | ok q3 =>
              simp only [h3, bind, Except.bind] at h
              cases h4 : divRat cmp.codeFilesChangedBytes (B : Int) with
              | error e =>
                simp only [h4, bind, Except.bind] at h
                exact Except.noConfusion h
              | ok q4 =>
                simp only [h4, bind, Except.bind, Except.ok.injEq] at h
                exact ⟨A, B, cmp, q1, q2, q3, q4, rfl, rfl, rfl, h1, h2, h3, h4, h.symm⟩

/-! ## Claim C4: empty-predecessor base case -/

/-- **C4 (confirmed).**  With an empty previous-version directory,
`compareDirectories` returns the all-zero `DiffStat` for every current
directory, every external-diff stdout and every file system — the result does
not depend on the modeled subprocess output, which embeds "does not invoke
any external process".  Consequently, whenever a batch run produces a first
report row, that row's eight diff counters are all zero. -/
theorem C4_empty_prev_zero (curDir output : String) (fs : FS) :
    compareDirectories "" curDir output fs = .ok zeroStat ∧
    ∀ (dirs : List String) (filesOf : String → List String) (diffOut : String → String → String)
      (row : Row) (rows : List Row),
      processAll dirs filesOf fs diffOut = .ok (row :: rows) →
      row.lookup "All line additions" = some (.n 0) ∧
        row.lookup "All line removals" = some (.n 0) ∧
        row.lookup "All files changed" = some (.n 0) ∧
        row.lookup "All changed bytes" = some (.n 0) ∧
        row.lookup "Code line additions" = some (.n 0) ∧
        row.lookup "Code line removals" = some (.n 0) ∧
        row.lookup "Code files changed" = some (.n 0) ∧
        row.lookup "Code changed bytes" = some (.n 0) := by
  constructor
  · rfl
  · intro dirs filesOf diffOut row rows h
    unfold processAll at h
    cases hsd : sortDirectories dirs with
    | nil =>
      rw [hsd] at h
      simp only [processAllAux, Except.ok.injEq] at h
      exact absurd h (by simp)
    | cons dd rest =>
      rw [hsd] at h
      simp only [processAllAux] at h
      cases hg : getDirectoryStats dd "" (filesOf dd) fs (diffOut "" dd) with
      | error e =>
        simp only [hg, bind, Except.bind] at h
        exact Except.noConfusion h
      | ok row0 =>
        simp only [hg, bind, Except.bind] at h
        cases hrest : processAllAux filesOf fs diffOut dd rest with
        | error e =>
          simp only [hrest, bind, Except.bind] at h
          exact Except.noConfusion h
        | ok rows0 =>
          simp only [hrest, bind, Except.bind, Except.ok.injEq, List.cons.injEq] at h
          obtain ⟨hrow, -⟩ := h
          obtain ⟨A, B, cmp, q1, q2, q3, q4, -, -, hc, -, -, -, -, hrow0⟩ :=
            getDirectoryStats_ok_elim hg
          have hz : cmp = zeroStat := by
            have h0 : compareDirectories "" dd (diffOut "" dd) fs = .ok zeroStat := rfl
            rw [h0] at hc
            exact (Except.ok.injEq _ _ ▸ hc.symm : _)
          rw [← hrow, hrow0, hz]
          exact ⟨rfl, rfl, rfl, rfl, rfl, rfl, rfl, rfl⟩

/-- Witness for C4: a one-directory batch run whose first (and only) row has
all eight diff counters zero. -/
theorem C4_empty_prev_zero_witness :
    List.lookup "All line additions"
        [("Ethereum Version", Cell.s "go-ethereum-1.0.0"), ("Num all files", Cell.n 1),
         ("Size all files (B)", Cell.n 10),
         ("Num code files (sol, go, c, js, java, h, cpp, sh, s, py)", Cell.n 1),
         ("Size code files (B)", Cell.n 10), ("*", Cell.s "*"),
         ("All line additions", Cell.n 0), ("All line removals", Cell.n 0),
         ("All files changed", Cell.n 0), ("Ratio all files changed", Cell.q (((0 : Int) : ℚ) / ((1 : Int) : ℚ))),
         ("All changed bytes", Cell.n 0), ("Ratio all bytes changed", Cell.q (((0 : Int) : ℚ) / ((10 : Int) : ℚ))),
         ("* ", Cell.s "*"), ("Code line additions", Cell.n 0),
         ("Code line removals", Cell.n 0), ("Code files changed", Cell.n 0),
         ("Ratio code files changed", Cell.q (((0 : Int) : ℚ) / ((1 : Int) : ℚ))), ("Code changed bytes", Cell.n 0),
         ("Ratio code bytes changed", Cell.q (((0 : Int) : ℚ) / ((10 : Int) : ℚ))), ("*  ", Cell.s "*"),
         ("File extenension histogram", Cell.s ".py (1)")] = some (.n 0) ∧
      List.lookup "All line removals"
        [("Ethereum Version", Cell.s "go-ethereum-1.0.0"), ("Num all files", Cell.n 1),
         ("Size all files (B)", Cell.n 10),
         ("Num code files (sol, go, c, js, java, h, cpp, sh, s, py)", Cell.n 1),
         ("Size code files (B)", Cell.n 10), ("*", Cell.s "*"),
         ("All line additions", Cell.n 0), ("All line removals", Cell.n 0),
         ("All files changed", Cell.n 0), ("Ratio all files changed", Cell.q (((0 : Int) : ℚ) / ((1 : Int) : ℚ))),
         ("All changed bytes", Cell.n 0), ("Ratio all bytes changed", Cell.q (((0 : Int) : ℚ) / ((10 : Int) : ℚ))),
         ("* ", Cell.s "*"), ("Code line additions", Cell.n 0),
         ("Code line removals", Cell.n 0), ("Code files changed", Cell.n 0),
         ("Ratio code files changed", Cell.q (((0 : Int) : ℚ) / ((1 : Int) : ℚ))), ("Code changed bytes", Cell.n 0),
         ("Ratio code bytes changed", Cell.q (((0 : Int) : ℚ) / ((10 : Int) : ℚ))), ("*  ", Cell.s "*"),
         ("File extenension histogram", Cell.s ".py (1)")] = some (.n 0) ∧
      List.lookup "All files changed"
        [("Ethereum Version", Cell.s "go-ethereum-1.0.0"), ("Num all files", Cell.n 1),
         ("Size all files (B)", Cell.n 10),
         ("Num code files (sol, go, c, js, java, h, cpp, sh, s, py)", Cell.n 1),
         ("Size code files (B)", Cell.n 10), ("*", Cell.s "*"),
         ("All line additions", Cell.n 0), ("All line removals", Cell.n 0),
         ("All files changed", Cell.n 0), ("Ratio all files changed", Cell.q (((0 : Int) : ℚ) / ((1 : Int) : ℚ))),
         ("All changed bytes", Cell.n 0), ("Ratio all bytes changed", Cell.q (((0 : Int) : ℚ) / ((10 : Int) : ℚ))),
         ("* ", Cell.s "*"), ("Code line additions", Cell.n 0),
         ("Code line removals", Cell.n 0), ("Code files changed", Cell.n 0),
         ("Ratio code files changed", Cell.q (((0 : Int) : ℚ) / ((1 : Int) : ℚ))), ("Code changed bytes", Cell.n 0),
         ("Ratio code bytes changed", Cell.q (((0 : Int) : ℚ) / ((10 : Int) : ℚ))), ("*  ", Cell.s "*"),
         ("File extenension histogram", Cell.s ".py (1)")] = some (.n 0) ∧
      List.lookup "All changed bytes"
        [("Ethereum Version", Cell.s "go-ethereum-1.0.0"), ("Num all files", Cell.n 1),
         ("Size all files (B)", Cell.n 10),
         ("Num code files (sol, go, c, js, java, h, cpp, sh, s, py)", Cell.n 1),
         ("Size code files (B)", Cell.n 10), ("*", Cell.s "*"),
         ("All line additions", Cell.n 0), ("All line removals", Cell.n 0),
         ("All files changed", Cell.n 0), ("Ratio all files changed", Cell.q (((0 : Int) : ℚ) / ((1 : Int) : ℚ))),
         ("All changed bytes", Cell.n 0), ("Ratio all bytes changed", Cell.q (((0 : Int) : ℚ) / ((10 : Int) : ℚ))),
         ("* ", Cell.s "*"), ("Code line additions", Cell.n 0),
         ("Code line removals", Cell.n 0), ("Code files changed", Cell.n 0),
         ("Ratio code files changed", Cell.q (((0 : Int) : ℚ) / ((1 : Int) : ℚ))), ("Code changed bytes", Cell.n 0),
         ("Ratio code bytes changed", Cell.q (((0 : Int) : ℚ) / ((10 : Int) : ℚ))), ("*  ", Cell.s "*"),
         ("File extenension histogram", Cell.s ".py (1)")] = some (.n 0) ∧
      List.lookup "Code line additions"
        [("Ethereum Version", Cell.s "go-ethereum-1.0.0"), ("Num all files", Cell.n 1),
         ("Size all files (B)", Cell.n 10),
         ("Num code files (sol, go, c, js, java, h, cpp, sh, s, py)", Cell.n 1),
         ("Size code files (B)", Cell.n 10), ("*", Cell.s "*"),
         ("All line additions", Cell.n 0), ("All line removals", Cell.n 0),
         ("All files changed", Cell.n 0), ("Ratio all files changed", Cell.q (((0 : Int) : ℚ) / ((1 : Int) : ℚ))),
         ("All changed bytes", Cell.n 0), ("Ratio all bytes changed", Cell.q (((0 : Int) : ℚ) / ((10 : Int) : ℚ))),
         ("* ", Cell.s "*"), ("Code line additions", Cell.n 0),
         ("Code line removals", Cell.n 0), ("Code files changed", Cell.n 0),
         ("Ratio code files changed", Cell.q (((0 : Int) : ℚ) / ((1 : Int) : ℚ))), ("Code changed bytes", Cell.n 0),
         ("Ratio code bytes changed", Cell.q (((0 : Int) : ℚ) / ((10 : Int) : ℚ))), ("*  ", Cell.s "*"),
         ("File extenension histogram", Cell.s ".py (1)")] = some (.n 0) ∧
      List.lookup "Code line removals"
        [("Ethereum Version", Cell.s "go-ethereum-1.0.0"), ("Num all files", Cell.n 1),
         ("Size all files (B)", Cell.n 10),
         ("Num code files (sol, go, c, js, java, h, cpp, sh, s, py)", Cell.n 1),
         ("Size code files (B)", Cell.n 10), ("*", Cell.s "*"),
         ("All line additions", Cell.n 0), ("All line removals", Cell.n 0),
         ("All files changed", Cell.n 0), ("Ratio all files changed", Cell.q (((0 : Int) : ℚ) / ((1 : Int) : ℚ))),
         ("All changed bytes", Cell.n 0), ("Ratio all bytes changed", Cell.q (((0 : Int) : ℚ) / ((10 : Int) : ℚ))),
         ("* ", Cell.s "*"), ("Code line additions", Cell.n 0),
         ("Code line removals", Cell.n 0), ("Code files changed", Cell.n 0),
         ("Ratio code files changed", Cell.q (((0 : Int) : ℚ) / ((1 : Int) : ℚ))), ("Code changed bytes", Cell.n 0),
         ("Ratio code bytes changed", Cell.q (((0 : Int) : ℚ) / ((10 : Int) : ℚ))), ("*  ", Cell.s "*"),
         ("File extenension histogram", Cell.s ".py (1)")] = some (.n 0) ∧
      List.lookup "Code files changed"
        [("Ethereum Version", Cell.s "go-ethereum-1.0.0"), ("Num all files", Cell.n 1),
         ("Size all files (B)", Cell.n 10),
         ("Num code files (sol, go, c, js, java, h, cpp, sh, s, py)", Cell.n 1),
         ("Size code files (B)", Cell.n 10), ("*", Cell.s "*"),
         ("All line additions", Cell.n 0), ("All line removals", Cell.n 0),
         ("All files changed", Cell.n 0), ("Ratio all files changed", Cell.q (((0 : Int) : ℚ) / ((1 : Int) : ℚ))),
         ("All changed bytes", Cell.n 0), ("Ratio all bytes changed", Cell.q (((0 : Int) : ℚ) / ((10 : Int) : ℚ))),
         ("* ", Cell.s "*"), ("Code line additions", Cell.n 0),
         ("Code line removals", Cell.n 0), ("Code files changed", Cell.n 0),
         ("Ratio code files changed", Cell.q (((0 : Int) : ℚ) / ((1 : Int) : ℚ))), ("Code changed bytes", Cell.n 0),
         ("Ratio code bytes changed", Cell.q (((0 : Int) : ℚ) / ((10 : Int) : ℚ))), ("*  ", Cell.s "*"),
         ("File extenension histogram", Cell.s ".py (1)")] = some (.n 0) ∧
      List.lookup "Code changed bytes"
        [("Ethereum Version", Cell.s "go-ethereum-1.0.0"), ("Num all files", Cell.n 1),
         ("Size all files (B)", Cell.n 10),
         ("Num code files (sol, go, c, js, java, h, cpp, sh, s, py)", Cell.n 1),
         ("Size code files (B)", Cell.n 10), ("*", Cell.s "*"),
         ("All line additions", Cell.n 0), ("All line removals", Cell.n 0),
         ("All files changed", Cell.n 0), ("Ratio all files changed", Cell.q (((0 : Int) : ℚ) / ((1 : Int) : ℚ))),
         ("All changed bytes", Cell.n 0), ("Ratio all bytes changed", Cell.q (((0 : Int) : ℚ) / ((10 : Int) : ℚ))),
         ("* ", Cell.s "*"), ("Code line additions", Cell.n 0),
         ("Code line removals", Cell.n 0), ("Code files changed", Cell.n 0),
         ("Ratio code files changed", Cell.q (((0 : Int) : ℚ) / ((1 : Int) : ℚ))), ("Code changed bytes", Cell.n 0),
         ("Ratio code bytes changed", Cell.q (((0 : Int) : ℚ) / ((10 : Int) : ℚ))), ("*  ", Cell.s "*"),
         ("File extenension histogram", Cell.s ".py (1)")] = some (.n 0) :=
  (C4_empty_prev_zero "v2" "garbage" (fun p => if p = "d/a.py" then some 10 else none)).2
    ["go-ethereum-1.0.0"] (fun _ => ["d/a.py"]) (fun _ _ => "") _ [] rfl

/-! ## Claim C10: the separator pseudo-columns in the CSV header -/

/-- **C10 counterexample.**  The claim says the header contains *exactly two*
pseudo-columns named `*`; a successful row yields a header with *three* of
them (the dict has keys `'*'`, `'* '` and `'*  '`, all stripped to `*` by the
header loop). -/
theorem C10_counterexample :
    ((getDirectoryStats "d" "" ["d/a.py"]
          (fun q => if q = "d/a.py" then some 10 else none) "").toOption.map
        (fun row => (headerColumns row).count "*")) = some 3 ∧ (3 : Nat) ≠ 2 :=
  ⟨rfl, by decide⟩

/-- **C10 (amended).**  The CSV header row contains exactly *three* internal
separator pseudo-columns literally named `*`, emitted as real quoted columns
alongside the (stripped) ReportRow field names, in the fixed order below. -/
theorem C10_header_stars (d p : String) (files : List String) (fs : FS) (out : String)
    (row : Row) (h : getDirectoryStats d p files fs out = .ok row) :
    (headerColumns row).count "*" = 3 ∧
      headerColumns row = ["Ethereum Version", "Num all files", "Size all files (B)",
        "Num code files (sol, go, c, js, java, h, cpp, sh, s, py)", "Size code files (B)",
        "*", "All line additions", "All line removals", "All files changed",
        "Ratio all files changed", "All changed bytes", "Ratio all bytes changed", "*",
        "Code line additions", "Code line removals", "Code files changed",
        "Ratio code files changed", "Code changed bytes", "Ratio code bytes changed", "*",
        "File extenension histogram"] := by
  obtain ⟨A, B, cmp, q1, q2, q3, q4, -, -, -, -, -, -, -, hrow⟩ := getDirectoryStats_ok_elim h
  subst hrow
  exact ⟨rfl, rfl⟩

/-- Witness for C10: the header columns of a concrete successful row. -/
theorem C10_header_stars_witness :
    (headerColumns (rowOf "d" 1 10 1 10 ".py (1)" zeroStat
          (((0 : Int) : ℚ) / ((1 : Int) : ℚ)) (((0 : Int) : ℚ) / ((10 : Int) : ℚ))
          (((0 : Int) : ℚ) / ((1 : Int) : ℚ)) (((0 : Int) : ℚ) / ((10 : Int) : ℚ)))).count
        "*" = 3 ∧
      headerColumns (rowOf "d" 1 10 1 10 ".py (1)" zeroStat
          (((0 : Int) : ℚ) / ((1 : Int) : ℚ)) (((0 : Int) : ℚ) / ((10 : Int) : ℚ))
          (((0 : Int) : ℚ) / ((1 : Int) : ℚ)) (((0 : Int) : ℚ) / ((10 : Int) : ℚ))) =
        ["Ethereum Version", "Num all files", "Size all files (B)",
          "Num code files (sol, go, c, js, java, h, cpp, sh, s, py)", "Size code files (B)",
          "*", "All line additions", "All line removals", "All files changed",
          "Ratio all files changed", "All changed bytes", "Ratio all bytes changed", "*",
          "Code line additions", "Code line removals", "Code files changed",
          "Ratio code files changed", "Code changed bytes", "Ratio code bytes changed", "*",
          "File extenension histogram"] :=
  C10_header_stars "d" "" ["d/a.py"] (fun q => if q = "d/a.py" then some 10 else none) "" _ rfl

/-! ## Claim C6: the four ratios and the zero-denominator fault -/

/-- Division with a non-zero divisor succeeds. -/
theorem divRat_ok (a : Int) {b : Int} (hb : b ≠ 0) :
    divRat a b = .ok ((a : ℚ) / (b : ℚ)) := by
  simp [divRat, hb]

/-- Division by zero faults. -/
theorem divRat_zero (a : Int) {b : Int} (hb : b = 0) :
    divRat a b = .error .divByZero := by
  simp [divRat, hb]

/-- **C6 (confirmed).**  When the file-size sums and the comparison succeed:
if all four denominators (file count, byte total, code-file count, code-byte
total) are non-zero, `getDirectoryStats` returns the row carrying the four
ratios files-changed / total-files, bytes-changed / total-bytes,
code-files-changed / total-code-files and code-bytes-changed /
total-code-bytes; if any denominator is zero, it faults with the division
error instead of returning a row. -/
theorem C6_ratios (directory prev : String) (files : List String) (fs : FS) (out : String)
    (A B : Nat) (cmp : DiffStat)
    (hA : allFilesSize fs files = .ok A)
    (hB : codeFilesSizeSum fs (files.filter (fun f => isCodeMatch f)) = .ok B)
    (hc : compareDirectories prev directory out fs = .ok cmp) :
    (files.length ≠ 0 → A ≠ 0 → (files.filter (fun f => isCodeMatch f)).length ≠ 0 → B ≠ 0 →
      getDirectoryStats directory prev files fs out =
        .ok (rowOf directory files.length A (files.filter (fun f => isCodeMatch f)).length B
          (extensionHistogramString files) cmp
          ((cmp.filesChanged : ℚ) / (((files.length : Int) : ℚ)))
          ((cmp.filesChangedBytes : ℚ) / (((A : Int) : ℚ)))
          ((cmp.codeFilesChanged : ℚ) /
            ((((files.filter (fun f => isCodeMatch f)).length : Int) : ℚ)))
          ((cmp.codeFilesChangedBytes : ℚ) / (((B : Int) : ℚ))))) ∧
    ((files.length = 0 ∨ A = 0 ∨ (files.filter (fun f => isCodeMatch f)).length = 0 ∨ B = 0) →
      getDirectoryStats directory prev files fs out = .error .divByZero) := by
  constructor
  · intro h1 h2 h3 h4
    have e1 := divRat_ok cmp.filesChanged (b := (files.length : Int))
      (Int.natCast_ne_zero.mpr h1)
    have e2 := divRat_ok cmp.filesChangedBytes (b := (A : Int)) (Int.natCast_ne_zero.mpr h2)
    have e3 := divRat_ok cmp.codeFilesChanged
      (b := ((files.filter (fun f => isCodeMatch f)).length : Int)) (Int.natCast_ne_zero.mpr h3)
    have e4 := divRat_ok cmp.codeFilesChangedBytes (b := (B : Int)) (Int.natCast_ne_zero.mpr h4)
    unfold getDirectoryStats
    simp only [hA, hB, hc, e1, e2, e3, e4, bind, Except.bind]
  · intro hz
    unfold getDirectoryStats
    simp only [hA, hB, hc, bind, Except.bind]
    by_cases h1 : files.length = 0
    · simp only [divRat_zero cmp.filesChanged (Int.natCast_eq_zero.mpr h1), bind, Except.bind]
    · have e1 := divRat_ok cmp.filesChanged (b := (files.length : Int))
        (Int.natCast_ne_zero.mpr h1)
      simp only [e1, bind, Except.bind]
      by_cases h2 : A = 0
      · simp only [divRat_zero cmp.filesChangedBytes (Int.natCast_eq_zero.mpr h2), bind,
          Except.bind]
      · have e2 := divRat_ok cmp.filesChangedBytes (b := (A : Int)) (Int.natCast_ne_zero.mpr h2)
        simp only [e2, bind, Except.bind]
        by_cases h3 : (files.filter (fun f => isCodeMatch f)).length = 0
        · simp only [divRat_zero cmp.codeFilesChanged (Int.natCast_eq_zero.mpr h3), bind,
            Except.bind]
        · have e3 := divRat_ok cmp.codeFilesChanged
            (b := ((files.filter (fun f => isCodeMatch f)).length : Int))
            (Int.natCast_ne_zero.mpr h3)
          simp only [e3, bind, Except.bind]
          have h4 : B = 0 := by
            rcases hz with h | h | h | h
            · exact absurd h h1
            · exact absurd h h2
            · exact absurd h h3
            · exact h
          simp only [divRat_zero cmp.codeFilesChangedBytes (Int.natCast_eq_zero.mpr h4), bind,
            Except.bind]

/-- Witness for C6: one `.py` file of 10 bytes, empty predecessor: all four
denominators non-zero, the row is produced with ratios 0/1, 0/10, 0/1, 0/10. -/
theorem C6_ratios_witness :
    getDirectoryStats "d" "" ["d/a.py"] (fun q => if q = "d/a.py" then some 10 else none) "" =
      .ok (rowOf "d" 1 10 1 10 ".py (1)" zeroStat
        (((0 : Int) : ℚ) / ((1 : Int) : ℚ)) (((0 : Int) : ℚ) / ((10 : Int) : ℚ))
        (((0 : Int) : ℚ) / ((1 : Int) : ℚ)) (((0 : Int) : ℚ) / ((10 : Int) : ℚ))) :=
  (C6_ratios "d" "" ["d/a.py"] (fun q => if q = "d/a.py" then some 10 else none) "" 10 10
    zeroStat rfl rfl rfl).1 (by decide) (by decide) (by decide) (by decide)

/-! ## Stability of insertion sort with respect to a key class -/

/-- Filtering by a key class commutes with `orderedInsert`, provided the
comparison never fails between two members of the class. -/
theorem filter_orderedInsert {α : Type} (r : α → α → Prop) [DecidableRel r]
    (f : α → Bool) (hrf : ∀ a b, ¬ r a b → f a = true → f b = true → False) (x : α) :
    ∀ l : List α, (List.orderedInsert r x l).filter f =
      if f x then x :: l.filter f else l.filter f
  | [] => by
    cases hfx : f x <;> simp [List.orderedInsert, List.filter_cons, hfx]
  | y :: ys => by
    by_cases hr : r x y
    · rw [List.orderedInsert, if_pos hr]
      cases hfx : f x <;> simp [List.filter_cons, hfx]
    · rw [List.orderedInsert, if_neg hr]
      cases hfx : f x with
      | true =>
        have hfy : f y = false := by
          cases hy : f y
          · rfl
          · exact absurd (hrf x y hr hfx hy) (fun h => h)
        simp [List.filter_cons, filter_orderedInsert r f hrf x ys, hfx, hfy]
      | false =>
        simp [List.filter_cons, filter_orderedInsert r f hrf x ys, hfx]

/-- A stable sort leaves every key class in its original order: filtering the
insertion sort by a key class gives the filtered input unchanged. -/
theorem filter_insertionSort {α : Type} (r : α → α → Prop) [DecidableRel r]
    (f : α → Bool) (hrf : ∀ a b, ¬ r a b → f a = true → f b = true → False) :
    ∀ l : List α, (List.insertionSort r l).filter f = l.filter f
  | [] => rfl
  | x :: xs => by
    rw [List.insertionSort, filter_orderedInsert r f hrf x (List.insertionSort r xs),
      filter_insertionSort r f hrf xs, List.filter_cons]

/-! ## Claim C1: the version ordering -/

/-- **C1 counterexample.**  The claim computes the key from the *first three
maximal digit runs* and gives key 0 otherwise.  For the name `v123` there is
only one maximal digit run, so the claimed key is 0, below the claimed key
1000000 of `b1.0.0`; yet `sortDirectories` puts `b1.0.0` first, because the
greedy backtracking regex splits the single run `123` into the groups
`1`, `2`, `3` (key 1002003).  The output is therefore not ascending in the
claimed key. -/
theorem C1_counterexample :
    sortDirectories ["v123", "b1.0.0"] = ["b1.0.0", "v123"] ∧
      specSortKey "v123" = 0 ∧ specSortKey "b1.0.0" = 1000000 ∧
      sortKey "v123" = 1002003 ∧
      ¬ (sortDirectories ["v123", "b1.0.0"]).Pairwise
          (fun a b => specSortKey a ≤ specSortKey b) := by
  refine ⟨by decide, by decide, by decide, by decide, ?_⟩
  intro h
  rw [show sortDirectories ["v123", "b1.0.0"] = ["b1.0.0", "v123"] from by decide] at h
  have := (List.pairwise_cons.mp h).1 "v123" (by simp)
  revert this
  decide

/-- **C1 (amended).**  `sortDirectories` returns the (first-occurrence
deduplicated) names sorted ascending by the key the greedy backtracking regex
computes (`sortKey`): the output is a permutation of the deduplicated input,
ascending in `sortKey`, and stable — every key class appears in its original
encounter order.  Determinism holds since `sortKey` is a function of the name.
(When the name has at least three maximal digit runs, `sortKey` combines the
first three exactly as the claim says; the divergence is that a name with
fewer runs but at least three digit characters still matches, its trailing
groups splitting a run.) -/
theorem C1_sortDirectories (dirs : List String) :
    (sortDirectories dirs).Perm (firstSeen dirs) ∧
      (sortDirectories dirs).Pairwise (fun a b => sortKey a ≤ sortKey b) ∧
      ∀ k : Nat, (sortDirectories dirs).filter (fun d => sortKey d == k) =
        (firstSeen dirs).filter (fun d => sortKey d == k) := by
  have hperm : (List.insertionSort keyLE ((firstSeen dirs).map fun d => (d, sortKey d))).Perm
      ((firstSeen dirs).map fun d => (d, sortKey d)) :=
    List.perm_insertionSort keyLE _
  have hmem : ∀ p ∈ List.insertionSort keyLE ((firstSeen dirs).map fun d => (d, sortKey d)),
      p.2 = sortKey p.1 := by
    intro p hp
    have hp' : p ∈ (firstSeen dirs).map fun d => (d, sortKey d) := hperm.mem_iff.mp hp
    obtain ⟨d, -, rfl⟩ := List.mem_map.mp hp'
    rfl
  have hfst : ((firstSeen dirs).map fun d => (d, sortKey d)).map Prod.fst = firstSeen dirs := by
    rw [List.map_map,
      show (Prod.fst ∘ fun d : String => (d, sortKey d)) = fun d => d from rfl]
    exact List.map_id' _
  refine ⟨?_, ?_, ?_⟩
  · have := hperm.map Prod.fst
    rw [hfst] at this
    exact this
  · have hs : (List.insertionSort keyLE ((firstSeen dirs).map fun d => (d, sortKey d))).Pairwise
        keyLE := List.sorted_insertionSort keyLE _
    have hs' : (List.insertionSort keyLE
        ((firstSeen dirs).map fun d => (d, sortKey d))).Pairwise
        (fun p q : String × Nat => sortKey p.1 ≤ sortKey q.1) := by
      refine hs.imp_of_mem ?_
      intro a b ha hb hab
      rw [← hmem a ha, ← hmem b hb]
      exact hab
    exact List.pairwise_map.mpr hs'
  · intro k
    have hrf : ∀ a b : String × Nat,
        ¬ keyLE a b → (a.2 == k) = true → (b.2 == k) = true → False := by
      intro a b hab ha hb
      exact hab (by rw [keyLE, beq_iff_eq.mp ha, beq_iff_eq.mp hb])
    have hstab := filter_insertionSort keyLE (fun p : String × Nat => p.2 == k) hrf
      ((firstSeen dirs).map fun d => (d, sortKey d))
    have hcong : (List.insertionSort keyLE
          ((firstSeen dirs).map fun d => (d, sortKey d))).filter
          ((fun d => sortKey d == k) ∘ Prod.fst) =
        (List.insertionSort keyLE ((firstSeen dirs).map fun d => (d, sortKey d))).filter
          (fun p : String × Nat => p.2 == k) := by
      apply List.filter_congr
      intro p hp
      show (sortKey p.1 == k) = (p.2 == k)
      rw [hmem p hp]
    show ((List.insertionSort keyLE ((firstSeen dirs).map fun d => (d, sortKey d))).map
        Prod.fst).filter (fun d => sortKey d == k) = _
    rw [List.filter_map, hcong, hstab, List.filter_map, List.map_map,
      show ((fun p : String × Nat => p.2 == k) ∘ fun d => (d, sortKey d)) =
        fun d => sortKey d == k from rfl,
      show (Prod.fst ∘ fun d : String => (d, sortKey d)) = fun d => d from rfl]
    exact List.map_id' _

/-! ## Claim C7: the extension histogram -/

/-- Bumping a key either leaves the key list unchanged (existing key) or
appends the new key. -/
theorem bump_map_fst (e : String) : ∀ acc : List (String × Nat),
    (bump acc e).map Prod.fst =
      if e ∈ acc.map Prod.fst then acc.map Prod.fst else acc.map Prod.fst ++ [e]
  | [] => by simp [bump]
  | (k, v) :: rest => by
    by_cases hk : k = e
    · subst hk
      simp [bump]
    · rw [bump, if_neg hk]
      simp only [List.map_cons]
      rw [bump_map_fst e rest]
      by_cases he : e ∈ rest.map Prod.fst
      · simp [he, hk]
      · simp [he, hk, Ne.symm hk]

/-- The histogram's key list is the first-seen list of the extensions. -/
theorem histo_map_fst_aux : ∀ (files : List String) (acc : List (String × Nat)),
    (List.foldl (fun a f => bump a (splitextExt f)) acc files).map Prod.fst =
      List.foldl (fun a x => if x ∈ a then a else a ++ [x]) (acc.map Prod.fst)
        (files.map splitextExt)
  | [], _ => rfl
  | f :: fs, acc => by
    simp only [List.foldl_cons, List.map_cons]
    rw [histo_map_fst_aux fs (bump acc (splitextExt f)), bump_map_fst]

/-- The histogram lists exactly the distinct extensions, in first-seen order. -/
theorem histo_map_fst (files : List String) :
    (histo files).map Prod.fst = firstSeen (files.map splitextExt) :=
  histo_map_fst_aux files []

/-- `bump` adds one to the key's total and leaves other totals unchanged. -/
theorem valueOf_bump (e x : String) : ∀ acc : List (String × Nat),
    valueOf (bump acc e) x = valueOf acc x + if x = e then 1 else 0
  | [] => by
    by_cases hx : x = e
    · subst hx
      simp [bump, valueOf]
    · simp [bump, valueOf, hx, Ne.symm hx]
  | (k, v) :: rest => by
    by_cases hk : k = e
    · subst hk
      rw [bump, if_pos rfl]
      by_cases hx : k = x
      · subst hx
        simp [valueOf]
        omega
      · simp [valueOf, hx, Ne.symm hx]
    · rw [bump, if_neg hk]
      simp only [valueOf]
      rw [valueOf_bump e x rest, Nat.add_assoc]

/-- The histogram's total for a key is the number of files with that
extension. -/
theorem valueOf_histo_aux (x : String) : ∀ (files : List String) (acc : List (String × Nat)),
    valueOf (List.foldl (fun a f => bump a (splitextExt f)) acc files) x =
      valueOf acc x + (files.map splitextExt).count x
  | [], acc => by simp
  | f :: fs, acc => by
    simp only [List.foldl_cons, List.map_cons]
    rw [valueOf_histo_aux x fs (bump acc (splitextExt f)), valueOf_bump]
    rw [List.count_cons]
    by_cases hx : x = splitextExt f
    · simp [hx]
      omega
    · simp [hx, Ne.symm hx]

/-- Absent keys have total `0`. -/
theorem valueOf_eq_zero_of_not_mem {x : String} : ∀ {h : List (String × Nat)},
    x ∉ h.map Prod.fst → valueOf h x = 0
  | [], _ => rfl
  | (k, v) :: rest, hx => by
    have hk : ¬ k = x := fun e => hx (by simp [e])
    have hrest : x ∉ rest.map Prod.fst := fun m => hx (by simp [m])
    simp [valueOf, hk, valueOf_eq_zero_of_not_mem hrest]

/-- With nodup keys, the total at a member's key is that member's value. -/
theorem valueOf_eq_of_mem : ∀ {h : List (String × Nat)}, (h.map Prod.fst).Nodup →
    ∀ p ∈ h, valueOf h p.1 = p.2
  | [], _, p, hp => absurd hp (List.not_mem_nil p)
  | (k, v) :: rest, hnd, p, hp => by
    simp only [List.map_cons, List.nodup_cons] at hnd
    rcases List.mem_cons.mp hp with he | hm
    · subst he
      simp [valueOf, valueOf_eq_zero_of_not_mem hnd.1]
    · have hk : ¬ k = p.1 := by
        intro e
        exact hnd.1 (e ▸ List.mem_map_of_mem Prod.fst hm)
      simp [valueOf, hk, valueOf_eq_of_mem hnd.2 p hm]

/-- The first-seen fold preserves nodup accumulators. -/
theorem foldl_dedup_nodup {α : Type} [DecidableEq α] :
    ∀ (l : List α) (acc : List α), acc.Nodup →
      (List.foldl (fun a x => if x ∈ a then a else a ++ [x]) acc l).Nodup
  | [], _, h => h
  | x :: xs, acc, h => by
    simp only [List.foldl_cons]
    by_cases hx : x ∈ acc
    · rw [if_pos hx]
      exact foldl_dedup_nodup xs acc h
    · rw [if_neg hx]
      exact foldl_dedup_nodup xs _ (by simp [List.nodup_append, h, hx])

/-- First-seen lists have no duplicates. -/
theorem firstSeen_nodup {α : Type} [DecidableEq α] (l : List α) : (firstSeen l).Nodup :=
  foldl_dedup_nodup l [] List.nodup_nil

/-- **C7 (confirmed).**  The rendered extension histogram is the descending
stable sort of the extension→count dict, rendered `ext (count)` with `", "`
separators: the sorted entries are a permutation of the dict entries, their
counts are non-increasing, every count class keeps its dict (first-encounter)
order, the dict lists each distinct extension exactly once in first-seen
order, its count is the number of files with that extension — and the claim's
example renders as `.py (2), .h (1)`. -/
theorem C7_histogram (files : List String) :
    extensionHistogramString files = renderHisto (sortedHisto files) ∧
      (sortedHisto files).Perm (histo files) ∧
      (sortedHisto files).Pairwise (fun p q : String × Nat => q.2 ≤ p.2) ∧
      (∀ k : Nat, (sortedHisto files).filter (fun p => p.2 == k) =
        (histo files).filter (fun p => p.2 == k)) ∧
      (histo files).map Prod.fst = firstSeen (files.map splitextExt) ∧
      (∀ p ∈ histo files, p.2 = (files.map splitextExt).count p.1) ∧
      extensionHistogramString ["a.py", "b.py", "c.h"] = ".py (2), .h (1)" := by
  refine ⟨rfl, List.perm_insertionSort keyGE _, List.sorted_insertionSort keyGE _,
    fun k => ?_, histo_map_fst files, fun p hp => ?_, rfl⟩
  · exact filter_insertionSort keyGE (fun p : String × Nat => p.2 == k)
      (fun a b hab ha hb => hab (by rw [keyGE, beq_iff_eq.mp ha, beq_iff_eq.mp hb]))
      (histo files)
  · have hnd : ((histo files).map Prod.fst).Nodup := by
      rw [histo_map_fst]
      exact firstSeen_nodup _
    have h1 := valueOf_eq_of_mem hnd p hp
    have h2 : valueOf (histo files) p.1 =
        valueOf [] p.1 + (files.map splitextExt).count p.1 :=
      valueOf_histo_aux p.1 files []
    rw [← h1]
    simpa [valueOf] using h2

end LogDir
